import Mathlib

/-!
Verification of the certificate/CA lifecycle and ACME issuance engine
(middlewared crypto plugin) against its natural-language specification.

The development shallowly embeds the relevant parts of the plugin:

* the CA-rooted serial allocator (`get_serial_for_certificate`,
  `child_serials`) over a store of CA and certificate rows;
* name validation (`validate_cert_name`) with the case-insensitive
  pattern and the reserved keywords;
* the read-side record enrichment (`cert_extend`) including signing-CA
  resolution, ACME-key removal, SAN splitting, issuer computation,
  chain building and the parse-tolerant certificate loop;
* the ACME orchestration (`issue_certificate`,
  `handle_authorizations`, `create_acme_certificate`) with the
  domain/DNS-mapping validation, the authorization loop and the
  ten-minute finalize deadline;
* the renewal scheduler loop (`renew_certs`).

External collaborators (OpenSSL parsing/dumping, the ACME directory,
DNS authenticators) are modelled as abstract environments; Python
exceptions are modelled by an explicit error type, and the unbounded
recursions of the source are given explicit fuel.
-/

/-! ## Python-level errors -/

/-- Errors of the embedded Python code.  `validationErrors` models a raised
aggregate `ValidationErrors` with its list of messages; the other
constructors model the corresponding Python exception classes.
`recursionError` stands for fuel exhaustion of the embedding (the source
recursion is unbounded). -/
inductive PyErr where
  | keyError (k : String)
  | attributeError (s : String)
  | typeError
  | nameError (s : String)
  | cryptoError
  | matchNotFound
  | recursionError
  | validationErrors (msgs : List String)
deriving DecidableEq, Repr

/-! ## Serial allocator (CertificateAuthorityService.get_serial_for_certificate) -/

/-- A stored certificate-authority row: its primary key, its serial and the
optional id of the CA that signed it. -/
structure CARec where
  id : Nat
  serial : Nat
  signedby : Option Nat
deriving DecidableEq, Repr

/-- A stored certificate row, with the same fields as used by the serial
allocator. -/
structure CertRec where
  id : Nat
  serial : Nat
  signedby : Option Nat
deriving DecidableEq, Repr

/-- The two datastore tables the serial allocator reads:
`system.certificateauthority` and `system.certificate`. -/
structure PkiStore where
  cas : List CARec
  certs : List CertRec
deriving Repr

/-- `self._get_instance(ca_id)` on the CA service: first row with the id. -/
def getCA (s : PkiStore) (i : Nat) : Option CARec :=
  s.cas.find? (fun c => c.id == i)

/-- `cert_serials(ca_id)`: serials of every certificate row whose
`signedby` is this CA. -/
def cert_serials (s : PkiStore) (caId : Nat) : List Nat :=
  (s.certs.filter (fun c => c.signedby == some caId)).map CertRec.serial

/-- `self.query([('signedby', '=', ca_id)])`: the CA rows signed by the CA. -/
def childrenOf (s : PkiStore) (caId : Nat) : List CARec :=
  s.cas.filter (fun c => c.signedby == some caId)

/-- Concatenation of the per-child serial lists, failing if any child
computation fails.  This is the `for child in children: serials.extend(...)`
loop of `child_serials`. -/
def collectSerials (f : Nat → Option (List Nat)) : List CARec → Option (List Nat)
  | [] => some []
  | c :: cs =>
    match f c.id, collectSerials f cs with
    | some l, some l2 => some (l ++ l2)
    | _, _ => none

/-- `child_serials(ca_id)` of the source: the serials of the recursive
children subtrees, then the serials of the certificates this CA signed, then
this CA's own serial (appended unconditionally).  `none` models a failed
datastore lookup or fuel exhaustion. -/
def child_serials (s : PkiStore) : Nat → Nat → Option (List Nat)
  | 0, _ => none
  | f + 1, caId =>
    match collectSerials (fun i => child_serials s f i) (childrenOf s caId) with
    | none => none
    | some ls =>
      match getCA s caId with
      | none => none
      | some ca => some (ls ++ cert_serials s caId ++ [ca.serial])

/-- Python's `max` over a nonempty list of naturals. -/
def listMax (l : List Nat) : Nat := l.foldr max 0

/-- `get_serial_for_certificate(ca_id)`: ascend `signedby` references to the
root CA, then combine the root's directly-signed certificate serials with
`child_serials(root)` and return `max + 1` (or `root.serial + 1` on an empty
collection).  `af` is the fuel of the ascent, `cf` the fuel of the subtree
recursion. -/
def get_serial_for_certificate (s : PkiStore) (cf : Nat) : Nat → Nat → Option Nat
  | 0, _ => none
  | af + 1, caId =>
    match getCA s caId with
    | none => none
    | some ca =>
      match ca.signedby with
      | some p => get_serial_for_certificate s cf af p
      | none =>
        match child_serials s cf caId with
        | none => none
        | some l2 =>
          let all := cert_serials s caId ++ l2
          if all.isEmpty then some (ca.serial + 1) else some (listMax all + 1)

/-- The root CA reached by the ascent of `get_serial_for_certificate`. -/
def rootOf (s : PkiStore) : Nat → Nat → Option Nat
  | 0, _ => none
  | af + 1, caId =>
    match getCA s caId with
    | none => none
    | some ca =>
      match ca.signedby with
      | some p => rootOf s af p
      | none => some caId

/-- Modelled from the spec's wording of the allocator (§4.2): at the root
collect (a) the serials of every certificate directly signed by this CA,
(b) recursively the serials collected the same way for every CA this CA has
signed, and (c) the CA's own serial. -/
def spec_subtree_serials (s : PkiStore) : Nat → Nat → Option (List Nat)
  | 0, _ => none
  | f + 1, caId =>
    match getCA s caId with
    | none => none
    | some ca =>
      match collectSerials (fun i => spec_subtree_serials s f i) (childrenOf s caId) with
      | none => none
      | some ls => some (cert_serials s caId ++ ls ++ [ca.serial])

/-- Concrete store for the spec scenario: a root CA of serial 1 that has
directly signed two certificates of serials 5 and 7. -/
def scenarioStore : PkiStore :=
  ⟨[⟨1, 1, none⟩], [⟨10, 5, some 1⟩, ⟨11, 7, some 1⟩]⟩

/-! ## Serial allocator lemmas -/

theorem mem_le_listMax {a : Nat} : ∀ {l : List Nat}, a ∈ l → a ≤ listMax l := by
  intro l h
  induction l with
  | nil => cases h
  | cons x xs ih =>
    rcases List.mem_cons.mp h with rfl | hm
    · exact le_max_left _ _
    · exact le_trans (ih hm) (le_max_right _ _)

theorem listMax_mem_or_zero : ∀ l : List Nat, listMax l ∈ l ∨ listMax l = 0 := by
  intro l
  induction l with
  | nil => exact Or.inr rfl
  | cons x xs ih =>
    by_cases hx : listMax xs ≤ x
    · left
      have : listMax (x :: xs) = x := max_eq_left hx
      rw [this]; exact List.mem_cons_self _ _
    · have hmax : listMax (x :: xs) = listMax xs :=
        max_eq_right (le_of_lt (lt_of_not_le hx))
      rcases ih with hm | hz
      · left; rw [hmax]; exact List.mem_cons_of_mem _ hm
      · right; rw [hmax, hz]

theorem listMax_congr {l l' : List Nat} (h : ∀ x, x ∈ l ↔ x ∈ l') :
    listMax l = listMax l' := by
  apply Nat.le_antisymm
  · rcases listMax_mem_or_zero l with hm | hz
    · exact mem_le_listMax ((h _).mp hm)
    · rw [hz]; exact Nat.zero_le _
  · rcases listMax_mem_or_zero l' with hm | hz
    · exact mem_le_listMax ((h _).mpr hm)
    · rw [hz]; exact Nat.zero_le _

/-- The source's `child_serials` and the spec-worded subtree collection have
the same members whenever both succeed (the source lists the child subtrees
first and duplicates nothing relevant; only the order differs). -/
theorem child_serials_mem_spec (s : PkiStore) :
    ∀ f caId l l2, spec_subtree_serials s f caId = some l →
      child_serials s f caId = some l2 → ∀ x, x ∈ l2 ↔ x ∈ l := by
  intro f
  induction f with
  | zero => intro caId l l2 hl; simp [spec_subtree_serials] at hl
  | succ f ih =>
    have ihList : ∀ cl ls ls2,
        collectSerials (fun i => spec_subtree_serials s f i) cl = some ls →
        collectSerials (fun i => child_serials s f i) cl = some ls2 →
        ∀ x, x ∈ ls2 ↔ x ∈ ls := by
      intro cl
      induction cl with
      | nil =>
        intro ls ls2 h1 h2
        simp [collectSerials] at h1 h2
        subst h1; subst h2; intro x; rfl
      | cons c cs ihc =>
        intro ls ls2 h1 h2
        simp only [collectSerials] at h1 h2
        cases hs1 : spec_subtree_serials s f c.id with
        | none => rw [hs1] at h1; simp at h1
        | some lh =>
          rw [hs1] at h1
          cases ht1 : collectSerials (fun i => spec_subtree_serials s f i) cs with
          | none => rw [ht1] at h1; simp at h1
          | some lt1 =>
            rw [ht1] at h1
            cases hs2 : child_serials s f c.id with
            | none => rw [hs2] at h2; simp at h2
            | some lh2 =>
              rw [hs2] at h2
              cases ht2 : collectSerials (fun i => child_serials s f i) cs with
              | none => rw [ht2] at h2; simp at h2
              | some lt2 =>
                rw [ht2] at h2
                simp at h1 h2
                subst h1; subst h2
                intro x
                have hhead := ih c.id lh lh2 hs1 hs2 x
                have htail := ihc lt1 lt2 ht1 ht2 x
                simp [List.mem_append, hhead, htail]
    intro caId l l2 hl hl2
    simp only [spec_subtree_serials] at hl
    simp only [child_serials] at hl2
    cases hca : getCA s caId with
    | none =>
      rw [hca] at hl; simp at hl
    | some ca =>
      rw [hca] at hl hl2
      cases hcs : collectSerials (fun i => spec_subtree_serials s f i) (childrenOf s caId) with
      | none => rw [hcs] at hl; simp at hl
      | some ls =>
        rw [hcs] at hl
        cases hcc : collectSerials (fun i => child_serials s f i) (childrenOf s caId) with
        | none => rw [hcc] at hl2; simp at hl2
        | some ls2 =>
          rw [hcc] at hl2
          simp at hl hl2
          subst hl; subst hl2
          intro x
          have hmid := ihList _ ls ls2 hcs hcc x
          simp [List.mem_append, hmid]
          tauto

/-- Claim C1: serial allocation.  `get_serial_for_certificate` ascends the
signing-CA references to the root of the chain and, whenever it returns a
value, that value is `max(collected) + 1` where `collected` is exactly the
spec's collection at the root: the serials of every certificate directly
signed by the root, recursively the serials under every CA the root has
signed, and the root's own serial. -/
theorem get_serial_eq_spec_max (s : PkiStore) :
    ∀ af cf caId r l n,
      rootOf s af caId = some r →
      spec_subtree_serials s cf r = some l →
      get_serial_for_certificate s cf af caId = some n →
      n = listMax l + 1 := by
  intro af
  induction af with
  | zero => intro cf caId r l n hr; simp [rootOf] at hr
  | succ af ih =>
    intro cf caId r l n hr hl hn
    simp only [rootOf] at hr
    simp only [get_serial_for_certificate] at hn
    cases hca : getCA s caId with
    | none => rw [hca] at hr; simp at hr
    | some ca =>
      simp only [hca] at hr hn
      cases hsb : ca.signedby with
      | some p =>
        simp only [hsb] at hr hn
        exact ih cf p r l n hr hl hn
      | none =>
        simp only [hsb] at hr hn
        simp at hr
        subst hr
        cases hcs : child_serials s cf caId with
        | none => simp only [hcs] at hn; exact Option.noConfusion hn
        | some l2 =>
          simp only [hcs] at hn
          -- the spec collection at the root has fuel at least one
          cases cf with
          | zero => simp [spec_subtree_serials] at hl
          | succ g =>
            simp only [spec_subtree_serials, hca] at hl
            cases hcol : collectSerials (fun i => spec_subtree_serials s g i) (childrenOf s caId) with
            | none => rw [hcol] at hl; simp at hl
            | some ls =>
              rw [hcol] at hl
              simp at hl
              subst hl
              -- membership correspondence between code and spec collections
              have hmem := child_serials_mem_spec s (g + 1) caId
                (cert_serials s caId ++ ls ++ [ca.serial]) l2
                (by simp only [spec_subtree_serials, hca, hcol])
                hcs
              -- the root's own serial is in the code collection
              have hserial : ca.serial ∈ l2 := by
                refine (hmem ca.serial).mpr ?_
                simp
              have hne : (cert_serials s caId ++ l2).isEmpty = false := by
                cases h : (cert_serials s caId ++ l2).isEmpty
                · rfl
                · exfalso
                  have := List.isEmpty_iff.mp h
                  have : ca.serial ∈ cert_serials s caId ++ l2 :=
                    List.mem_append_right _ hserial
                  simp_all
              rw [hne] at hn
              simp at hn
              have hall : ∀ x, x ∈ cert_serials s caId ++ l2 ↔
                  x ∈ cert_serials s caId ++ ls ++ [ca.serial] := by
                intro x
                rw [List.mem_append, List.mem_append, List.mem_append, hmem x,
                  List.mem_append, List.mem_append]
                tauto
              have hlm := listMax_congr hall
              simp only [List.append_assoc] at hlm ⊢
              omega

/-- Witness for C1: the spec scenario.  Under a root CA of serial 1 whose
subtree holds certificates of serials 5 and 7, allocation yields 8, and 8 is
indeed `max{5, 7, 1} + 1`. -/
theorem get_serial_eq_spec_max_witness :
    get_serial_for_certificate scenarioStore 1 1 1 = some 8 ∧
      (8 : Nat) = listMax [5, 7, 1] + 1 :=
  ⟨by decide,
    get_serial_eq_spec_max scenarioStore 1 1 1 1 [5, 7, 1] 8
      (by decide) (by decide) (by decide)⟩

/-- Claim C10: the collection assembled at the root always contains the root
CA's own serial (`child_serials` appends it unconditionally), so every value
the allocator returns is strictly greater than the root's serial and the
empty-collection fallback branch is unreachable. -/
theorem get_serial_exceeds_root_serial (s : PkiStore) :
    ∀ af cf caId n r rca,
      get_serial_for_certificate s cf af caId = some n →
      rootOf s af caId = some r →
      getCA s r = some rca →
      rca.serial < n ∧
        ∃ l2, child_serials s cf r = some l2 ∧ rca.serial ∈ l2 ∧
          (cert_serials s r ++ l2).isEmpty = false := by
  intro af
  induction af with
  | zero => intro cf caId n r rca hn; simp [get_serial_for_certificate] at hn
  | succ af ih =>
    intro cf caId n r rca hn hr hrca
    simp only [rootOf] at hr
    simp only [get_serial_for_certificate] at hn
    cases hca : getCA s caId with
    | none => rw [hca] at hr; simp at hr
    | some ca =>
      simp only [hca] at hr hn
      cases hsb : ca.signedby with
      | some p =>
        simp only [hsb] at hr hn
        exact ih cf p n r rca hn hr hrca
      | none =>
        simp only [hsb] at hr hn
        simp at hr
        subst hr
        have hcaeq : ca = rca := by rw [hca] at hrca; injection hrca
        subst hcaeq
        cases hcs : child_serials s cf caId with
        | none => simp only [hcs] at hn; exact Option.noConfusion hn
        | some l2 =>
          simp only [hcs] at hn
          cases cf with
          | zero => simp [child_serials] at hcs
          | succ g =>
            have hserial : ca.serial ∈ l2 := by
              simp only [child_serials] at hcs
              cases hcc : collectSerials (fun i => child_serials s g i) (childrenOf s caId) with
              | none => rw [hcc] at hcs; simp at hcs
              | some ls =>
                rw [hcc, hca] at hcs
                simp at hcs
                subst hcs
                simp
            have hne : (cert_serials s caId ++ l2).isEmpty = false := by
              cases h : (cert_serials s caId ++ l2).isEmpty
              · rfl
              · exfalso
                have := List.isEmpty_iff.mp h
                have : ca.serial ∈ cert_serials s caId ++ l2 :=
                  List.mem_append_right _ hserial
                simp_all
            rw [hne] at hn
            simp at hn
            refine ⟨?_, l2, rfl, hserial, hne⟩
            have hle : ca.serial ≤ listMax (cert_serials s caId ++ l2) :=
              mem_le_listMax (List.mem_append_right _ hserial)
            omega

/-- Witness for C10: in the scenario store the allocator returns 8, the root
serial 1 is strictly below it and is a member of the collection, which is
nonempty. -/
theorem get_serial_exceeds_root_serial_witness :
    (1 : Nat) < 8 ∧
      ∃ l2, child_serials scenarioStore 1 1 = some l2 ∧ 1 ∈ l2 ∧
        (cert_serials scenarioStore 1 ++ l2).isEmpty = false :=
  get_serial_exceeds_root_serial scenarioStore 1 1 1 8 1 ⟨1, 1, none⟩
    (by decide) (by decide) (by decide)

/-! ## Name validation (validate_cert_name) -/

/-- One character of the class of `r'^[a-z0-9_\-]+$'` compiled with `re.I`:
ASCII letters of either case, digits, underscore and hyphen. -/
def validNameChar (c : Char) : Bool :=
  (('a' ≤ c) && (c ≤ 'z')) || (('A' ≤ c) && (c ≤ 'Z')) ||
    (('0' ≤ c) && (c ≤ '9')) || (c == '_') || (c == '-')

/-- `re.search(r'^[a-z0-9_\-]+$', name, re.I)` succeeds: without `re.M` the
anchor `^` only matches at the start and `$` matches at the end or just
before one final newline, so the body (ignoring one trailing newline) must
be nonempty and made of class characters only. -/
def nameMatchesPattern (s : String) : Bool :=
  let cs := s.toList
  let core := if cs.getLast? == some '\n' then cs.dropLast else cs
  (!core.isEmpty) && core.all validNameChar

/-- `validate_cert_name`: the duplicate check against the datastore (here
the list of existing names), the reserved-keyword check (exact string
comparison, as in the source) and the pattern check, each appending its
error message to the aggregate. -/
def validate_cert_name (existing : List String) (cert_name : String) : List String :=
  (if existing.contains cert_name
   then ["A certificate with this name already exists"] else [])
  ++ (if cert_name = "external" ∨ cert_name = "self-signed" ∨
        cert_name = "external - signature pending"
      then [cert_name ++ " is a reserved internal keyword for Certificate Management"]
      else [])
  ++ (if nameMatchesPattern cert_name then []
      else ["Use alphanumeric characters, \"_\" and \"-\"."])

/-- Counterexample to claim C4: the reserved tokens are compared
case-sensitively, so the case variant `External` passes the reserved check,
matches the case-insensitive pattern, and is accepted with no error at all —
the claim asserts it must be rejected. -/
theorem validate_cert_name_accepts_case_variant :
    validate_cert_name [] "External" = [] := by decide

/-- Claim C4 (amended): a candidate name is accepted exactly when it is not
already stored, is not one of the three reserved tokens in their exact
(lowercase) spelling, and matches the case-insensitive pattern
`^[a-z0-9_\-]+$`; reserved-token case variants such as `External` therefore
pass, and the pattern tolerates one trailing newline via the `$` anchor. -/
theorem validate_cert_name_characterization (existing : List String) (cert_name : String) :
    validate_cert_name existing cert_name = [] ↔
      (existing.contains cert_name = false ∧
        ¬(cert_name = "external" ∨ cert_name = "self-signed" ∨
          cert_name = "external - signature pending") ∧
        nameMatchesPattern cert_name = true) := by
  unfold validate_cert_name
  by_cases h1 : existing.contains cert_name
  · simp [h1]
  · by_cases h2 : cert_name = "external" ∨ cert_name = "self-signed" ∨
        cert_name = "external - signature pending"
    · simp [h1, h2]
    · by_cases h3 : nameMatchesPattern cert_name
      · simp [h1, h2, h3]
      · simp [h1, h2, h3]

/-! ## Renewal scheduler (CertificateService.renew_certs) -/

/-- The fields of an ACME-managed certificate record the renewal loop
reads: its id, the days left to expiry (`(expire - now).days`) and the
configured renewal threshold. -/
structure RCert where
  id : Nat
  daysLeft : Int
  renewDays : Int
deriving DecidableEq, Repr

/-- The `renew_certs` loop over the ACME-managed records.  `issue` is
`issue_certificate` for the record of a given id (abstracted to its
outcome; the datastore update after a successful issue is not modelled).
The result is the list of record ids for which a renewal was attempted and
the exception, if any, that escaped the run: the loop body has no exception
handler, so a failing `issue_certificate` propagates and ends the run. -/
def renew_certs (issue : Nat → Except PyErr Unit) : List RCert → List Nat × Option PyErr
  | [] => ([], none)
  | c :: rest =>
    if c.daysLeft < c.renewDays then
      match issue c.id with
      | .error e => ([c.id], some e)
      | .ok _ =>
        let r := renew_certs issue rest
        (c.id :: r.1, r.2)
    else renew_certs issue rest

/-- Issue outcome for the renewal counterexample: record 1 fails, every
other record would succeed. -/
def renewIssueFail1 : Nat → Except PyErr Unit :=
  fun i => if i == 1 then .error (.validationErrors ["renewal failed"]) else .ok ()

/-- Counterexample to claim C2: with two due ACME-managed records, a failing
re-issue of record 1 ends the run — only record 1 is attempted and record 2
is never evaluated, while the claim demands that every remaining record
still be attempted in the same run. -/
theorem renew_certs_stops_after_failure :
    renew_certs renewIssueFail1 [⟨1, 0, 10⟩, ⟨2, 0, 10⟩] =
      ([1], some (.validationErrors ["renewal failed"])) := by decide

/-- Claim C2 (amended): a renewal failure aborts the run.  If every due
record before `c` renews successfully and re-issuing the due record `c`
fails, the run attempts exactly the due records up to and including `c` —
the records after `c` are not evaluated — and the failure propagates out of
the run. -/
theorem renew_certs_abort_on_failure (issue : Nat → Except PyErr Unit)
    (pre : List RCert) (c : RCert) (rest : List RCert) (e : PyErr)
    (hpre : ∀ p ∈ pre, p.daysLeft < p.renewDays → issue p.id = .ok ())
    (hdue : c.daysLeft < c.renewDays)
    (hfail : issue c.id = .error e) :
    renew_certs issue (pre ++ c :: rest) =
      ((pre.filter (fun p => decide (p.daysLeft < p.renewDays))).map RCert.id ++ [c.id],
        some e) := by
  induction pre with
  | nil =>
    simp only [List.nil_append, renew_certs, if_pos hdue, hfail, List.filter_nil,
      List.map_nil]
  | cons p ps ih =>
    have hih := ih (fun q hq => hpre q (List.mem_cons_of_mem _ hq))
    have hp := hpre p (List.mem_cons_self _ _)
    by_cases hd : p.daysLeft < p.renewDays
    · have hok := hp hd
      simp only [List.cons_append, renew_certs, if_pos hd, hok, List.append_eq]
      rw [hih]
      simp [List.filter_cons, hd]
    · simp only [List.cons_append, renew_certs, if_neg hd, List.append_eq]
      rw [hih]
      simp [List.filter_cons, hd]

/-- Witness for C2 (amended): a due record that renews, then a due record
that fails, then a record that is never reached. -/
theorem renew_certs_abort_on_failure_witness :
    renew_certs (fun i => if i == 2 then .error (.validationErrors ["boom"]) else .ok ())
        [⟨1, 0, 10⟩, ⟨2, 0, 10⟩, ⟨3, 0, 10⟩] =
      (([(⟨1, 0, 10⟩ : RCert)].filter
          (fun p => decide (p.daysLeft < p.renewDays))).map RCert.id ++ [2],
        some (.validationErrors ["boom"])) :=
  renew_certs_abort_on_failure
    (fun i => if i == 2 then .error (.validationErrors ["boom"]) else .ok ())
    [⟨1, 0, 10⟩] ⟨2, 0, 10⟩ [⟨3, 0, 10⟩] (.validationErrors ["boom"])
    (by intro p hp hd; rcases List.mem_singleton.mp hp with rfl; rfl)
    (by decide) rfl

/-! ## ACME orchestration (issue_certificate, handle_authorizations) -/

/-- Outcome of `dns.authenticator.update_txt_record` for a domain: either it
raises a `ValidationErrors` (whose messages the caller extends into its own
aggregate) or it returns a boolean publication status. -/
inductive TxtOutcome where
  | raised (msgs : List String)
  | returned (status : Bool)
deriving DecidableEq, Repr

/-- Outcome of `acme_client.answer_challenge` for a domain: success or an
`errors.UnexpectedUpdate`. -/
inductive AnswerOutcome where
  | ok
  | unexpected (msg : String)
deriving DecidableEq, Repr

/-- One pending authorization of an ACME order: its domain and the types of
the challenges the server offers for it. -/
structure Authz where
  domain : String
  challengeTypes : List String
deriving DecidableEq, Repr

/-- An ACME order as used by the authorization loop. -/
structure AcmeOrder where
  authorizations : List Authz
deriving DecidableEq, Repr

/-- The finalized order returned by `poll_and_finalize`. -/
structure FinalOrder where
  fullchainPem : String
  uri : String
  expire : String
deriving DecidableEq, Repr

/-- Outcome of `poll_and_finalize` against its deadline. -/
inductive PollOutcome where
  | timeout
  | final (o : FinalOrder)
deriving DecidableEq, Repr

/-- The external ACME world: the registered DNS-authenticator ids, the
order-creation endpoint, the per-domain TXT-record and challenge-answer
outcomes, and the finalize polling as a function of the deadline passed. -/
structure AcmeEnv where
  authenticatorIds : List Nat
  newOrder : Except String AcmeOrder
  txt : String → TxtOutcome
  answer : String → AnswerOutcome
  poll : Int → PollOutcome

/-- The caller-supplied data of an ACME issuance that the modelled control
flow reads: the per-domain DNS-authenticator mapping. -/
structure IssueData where
  dnsMapping : List (String × Nat)

/-- The CSR record fields read by `get_domain_names`. -/
structure CsrData where
  common : String
  san : List String
deriving DecidableEq, Repr

/-- `get_domain_names`: the common name followed by the subject alternative
names. -/
def get_domain_names (c : CsrData) : List String := c.common :: c.san

/-- The domain/DNS-mapping validation of `issue_certificate`: for every CSR
domain, an error if it has no mapping entry and an error if the mapped
authenticator id does not exist; then, for every mapping entry, an error if
its domain is not in the CSR.  The errors are aggregated in loop order. -/
def domain_mapping_errors (authIds : List Nat) (mapping : List (String × Nat))
    (domains : List String) : List String :=
  (domains.map (fun d =>
    match mapping.lookup d with
    | none => ["Please provide DNS authenticator id for " ++ d]
    | some aid =>
      if authIds.contains aid then []
      else ["Provided DNS Authenticator id for " ++ d ++ " does not exist"])).flatten
  ++ ((mapping.map Prod.fst).map (fun d =>
    if domains.contains d then [] else [d ++ " not specified in the CSR"])).flatten

/-- The `for authorization_resource in order.authorizations` loop of
`handle_authorizations`.  Returns the domains attempted, the aggregated
error messages, and the exception, if any, that escaped the loop (a
`KeyError` on a domain absent from the mapping is not caught by the loop).
A missing dns-01 challenge, a `ValidationErrors` from the TXT update and an
`UnexpectedUpdate` from answering are recorded and the loop continues; a
`False` return of the TXT update records nothing and the challenge is still
answered. -/
def authzLoop (env : AcmeEnv) (mapping : List (String × Nat)) :
    List Authz → List String × List String × Option PyErr
  | [] => ([], [], none)
  | a :: rest =>
    if a.challengeTypes.contains "dns-01" then
      match mapping.lookup a.domain with
      | none => ([a.domain], [], some (.keyError a.domain))
      | some _ =>
        match env.txt a.domain with
        | .raised es =>
          let r := authzLoop env mapping rest
          (a.domain :: r.1, es ++ r.2.1, r.2.2)
        | .returned _ =>
          match env.answer a.domain with
          | .ok =>
            let r := authzLoop env mapping rest
            (a.domain :: r.1, r.2.1, r.2.2)
          | .unexpected m =>
            let r := authzLoop env mapping rest
            (a.domain :: r.1,
              ("Error answering challenge for " ++ a.domain ++ " : " ++ m) :: r.2.1,
              r.2.2)
    else
      let r := authzLoop env mapping rest
      (a.domain :: r.1,
        ("DNS Challenge not found for domain " ++ a.domain) :: r.2.1, r.2.2)

/-- `handle_authorizations`: run the loop over every authorization, then
raise the aggregate `ValidationErrors` once, only if any message was
collected.  The first component is the list of domains attempted. -/
def handle_authorizations (env : AcmeEnv) (mapping : List (String × Nat))
    (order : AcmeOrder) : List String × Option PyErr :=
  let r := authzLoop env mapping order.authorizations
  match r.2.2 with
  | some e => (r.1, some e)
  | none => (r.1, if r.2.1.isEmpty then none else some (.validationErrors r.2.1))

/-- The failure messages a single authorization contributes to the
aggregate: the missing-challenge message, the messages of a raised TXT
update, or the answer-rejection message.  A TXT update returning `False`
contributes nothing. -/
def authz_fail_msgs (env : AcmeEnv) (a : Authz) : List String :=
  if a.challengeTypes.contains "dns-01" then
    match env.txt a.domain with
    | .raised es => es
    | .returned _ =>
      match env.answer a.domain with
      | .ok => []
      | .unexpected m => ["Error answering challenge for " ++ a.domain ++ " : " ++ m]
  else ["DNS Challenge not found for domain " ++ a.domain]

/-- The observable result of one `issue_certificate` run: whether
`new_order` was invoked, which authorization domains were attempted, the
deadline passed to `poll_and_finalize` (if reached), and the outcome. -/
structure IssueResult where
  newOrderCalled : Bool
  authAttempted : List String
  pollDeadline : Option Int
  outcome : Except PyErr FinalOrder

/-- `issue_certificate`: validate the domain/DNS mapping and raise the
aggregate before anything else; then place the order (a protocol rejection
becomes an aggregate error), run `handle_authorizations`, and poll to
finalize against a `now + 10 minutes` deadline, a timeout becoming the
distinct final-order error. -/
def issue_certificate (env : AcmeEnv) (now : Int) (data : IssueData)
    (csr : CsrData) : IssueResult :=
  let domains := get_domain_names csr
  let verrs := domain_mapping_errors env.authenticatorIds data.dnsMapping domains
  if verrs.isEmpty then
    match env.newOrder with
    | .error msg =>
      ⟨true, [], none,
        .error (.validationErrors ["Failed to issue a new order for Certificate : " ++ msg])⟩
    | .ok order =>
      match handle_authorizations env data.dnsMapping order with
      | (att, some e) => ⟨true, att, none, .error e⟩
      | (att, none) =>
        let deadline := now + 10 * 60
        match env.poll deadline with
        | .timeout =>
          ⟨true, att, some deadline,
            .error (.validationErrors ["Certificate request for final order timed out"])⟩
        | .final o => ⟨true, att, some deadline, .ok o⟩
  else ⟨false, [], none, .error (.validationErrors verrs)⟩

/-- `__create_acme_certificate` followed by the datastore insert of
`do_create`: if `issue_certificate` raises, the exception propagates and the
insert is never reached.  The boolean records whether the insert happened. -/
def create_acme_certificate (env : AcmeEnv) (now : Int) (data : IssueData)
    (csr : CsrData) : IssueResult × Bool × Except PyErr FinalOrder :=
  let r := issue_certificate env now data csr
  match r.outcome with
  | .error e => (r, false, .error e)
  | .ok o => (r, true, .ok o)

/-! ## ACME lemmas and theorems -/

theorem mem_domain_mapping_errors_missing (authIds : List Nat)
    {mapping : List (String × Nat)} {domains : List String} {d : String}
    (hd : d ∈ domains) (hl : mapping.lookup d = none) :
    ("Please provide DNS authenticator id for " ++ d) ∈
      domain_mapping_errors authIds mapping domains := by
  unfold domain_mapping_errors
  refine List.mem_append_left _ ?_
  refine List.mem_flatten.mpr ⟨["Please provide DNS authenticator id for " ++ d], ?_, ?_⟩
  · refine List.mem_map.mpr ⟨d, hd, ?_⟩
    rw [hl]
  · exact List.mem_singleton.mpr rfl

theorem mem_domain_mapping_errors_extra (authIds : List Nat)
    {mapping : List (String × Nat)} {domains : List String} {p : String × Nat}
    (hp : p ∈ mapping) (hc : domains.contains p.1 = false) :
    (p.1 ++ " not specified in the CSR") ∈
      domain_mapping_errors authIds mapping domains := by
  unfold domain_mapping_errors
  refine List.mem_append_right _ ?_
  refine List.mem_flatten.mpr ⟨[p.1 ++ " not specified in the CSR"], ?_, ?_⟩
  · refine List.mem_map.mpr ⟨p.1, List.mem_map.mpr ⟨p, hp, rfl⟩, ?_⟩
    simp only [hc, Bool.false_eq_true, if_false]
  · exact List.mem_singleton.mpr rfl

/-- Claim C3: ACME domain-mapping symmetry.  If some CSR domain has no
mapping entry or some mapping entry names a domain not in the CSR, then
`issue_certificate` raises one aggregate `ValidationErrors` that names each
offending domain, and `new_order` is never called, so no order is placed. -/
theorem issue_certificate_domain_mapping_symmetry (env : AcmeEnv) (now : Int)
    (data : IssueData) (csr : CsrData)
    (h : (∃ d ∈ get_domain_names csr, data.dnsMapping.lookup d = none) ∨
      (∃ p ∈ data.dnsMapping, (get_domain_names csr).contains p.1 = false)) :
    (issue_certificate env now data csr).newOrderCalled = false ∧
      ∃ es, (issue_certificate env now data csr).outcome =
          .error (.validationErrors es) ∧
        (∀ d ∈ get_domain_names csr, data.dnsMapping.lookup d = none →
          ("Please provide DNS authenticator id for " ++ d) ∈ es) ∧
        (∀ p ∈ data.dnsMapping, (get_domain_names csr).contains p.1 = false →
          (p.1 ++ " not specified in the CSR") ∈ es) := by
  have hne : (domain_mapping_errors env.authenticatorIds data.dnsMapping
      (get_domain_names csr)).isEmpty = false := by
    rcases h with ⟨d, hd, hl⟩ | ⟨p, hp, hc⟩
    · have := mem_domain_mapping_errors_missing env.authenticatorIds hd hl
      cases hemp : (domain_mapping_errors env.authenticatorIds data.dnsMapping
          (get_domain_names csr)).isEmpty
      · rfl
      · rw [List.isEmpty_iff.mp hemp] at this; cases this
    · have := mem_domain_mapping_errors_extra env.authenticatorIds hp hc
      cases hemp : (domain_mapping_errors env.authenticatorIds data.dnsMapping
          (get_domain_names csr)).isEmpty
      · rfl
      · rw [List.isEmpty_iff.mp hemp] at this; cases this
  have hres : issue_certificate env now data csr =
      ⟨false, [], none, .error (.validationErrors (domain_mapping_errors
        env.authenticatorIds data.dnsMapping (get_domain_names csr)))⟩ := by
    unfold issue_certificate
    simp only [hne, Bool.false_eq_true, if_false]
  rw [hres]
  refine ⟨rfl, domain_mapping_errors env.authenticatorIds data.dnsMapping
    (get_domain_names csr), rfl, ?_, ?_⟩
  · intro d hd hl
    exact mem_domain_mapping_errors_missing env.authenticatorIds hd hl
  · intro p hp hc
    exact mem_domain_mapping_errors_extra env.authenticatorIds hp hc

/-- The spec's symmetry scenario: CSR domains `a.example.com` and
`b.example.com`, mapping covering only `a.example.com`. -/
def symCsr : CsrData := ⟨"a.example.com", ["b.example.com"]⟩

/-- Environment for the symmetry scenario; authenticator 1 exists and the
directory is never reached. -/
def symEnv : AcmeEnv :=
  ⟨[1], .error "unreached", fun _ => .returned true, fun _ => .ok, fun _ => .timeout⟩

/-- Witness for C3: with the spec scenario mapping `a.example.com ↦ 1` and
missing `b.example.com`, no order is placed and the aggregate names
`b.example.com`. -/
theorem issue_certificate_domain_mapping_symmetry_witness :
    (issue_certificate symEnv 0 ⟨[("a.example.com", 1)]⟩ symCsr).newOrderCalled = false ∧
      ∃ es, (issue_certificate symEnv 0 ⟨[("a.example.com", 1)]⟩ symCsr).outcome =
          .error (.validationErrors es) ∧
        (∀ d ∈ get_domain_names symCsr, List.lookup d [("a.example.com", 1)] = none →
          ("Please provide DNS authenticator id for " ++ d) ∈ es) ∧
        (∀ p ∈ [("a.example.com", 1)], (get_domain_names symCsr).contains p.1 = false →
          (p.1 ++ " not specified in the CSR") ∈ es) :=
  issue_certificate_domain_mapping_symmetry symEnv 0 ⟨[("a.example.com", 1)]⟩ symCsr
    (Or.inl ⟨"b.example.com", by decide, by decide⟩)

/-- The authorization loop, when every authorization's domain is covered by
the mapping, attempts every domain and collects exactly the per-domain
failure messages in order, with no escaping exception. -/
theorem authzLoop_covered (env : AcmeEnv) (mapping : List (String × Nat)) :
    ∀ auths : List Authz, (∀ a ∈ auths, (mapping.lookup a.domain).isSome) →
      authzLoop env mapping auths =
        (auths.map (fun a => a.domain), (auths.map (authz_fail_msgs env)).flatten, none) := by
  intro auths
  induction auths with
  | nil => intro _; rfl
  | cons a rest ih =>
    intro hcov
    have hrest := ih (fun b hb => hcov b (List.mem_cons_of_mem _ hb))
    have ha := hcov a (List.mem_cons_self _ _)
    rcases Option.isSome_iff_exists.mp ha with ⟨aid, haid⟩
    cases hch : a.challengeTypes.contains "dns-01" with
    | false =>
      have hmem : ("dns-01" : String) ∉ a.challengeTypes := by simpa using hch
      simp [authzLoop, authz_fail_msgs, hmem, hrest]
    | true =>
      have hmem : ("dns-01" : String) ∈ a.challengeTypes := by simpa using hch
      cases htxt : env.txt a.domain with
      | raised es => simp [authzLoop, authz_fail_msgs, hmem, haid, htxt, hrest]
      | returned st =>
        cases hans : env.answer a.domain with
        | ok => simp [authzLoop, authz_fail_msgs, hmem, haid, htxt, hans, hrest]
        | unexpected m =>
          simp [authzLoop, authz_fail_msgs, hmem, haid, htxt, hans, hrest]

/-- Claim C6 (amended): in `handle_authorizations`, the per-domain failures
that surface as exceptions (no dns-01 challenge offered, a TXT update that
raises a validation error, a rejected challenge answer) do not stop the
loop: every authorization is attempted, the collected messages contain every
per-domain failure message, and exactly one aggregate error is raised only
after the loop, iff any message was collected.  A TXT update that merely
returns `False` contributes no message, so the function can succeed although
that domain's publication failed. -/
theorem handle_authorizations_aggregates (env : AcmeEnv)
    (mapping : List (String × Nat)) (order : AcmeOrder)
    (hcov : ∀ a ∈ order.authorizations, (mapping.lookup a.domain).isSome) :
    handle_authorizations env mapping order =
      (order.authorizations.map (fun a => a.domain),
        if ((order.authorizations.map (authz_fail_msgs env)).flatten).isEmpty then none
        else some (.validationErrors
          ((order.authorizations.map (authz_fail_msgs env)).flatten))) ∧
      ∀ a ∈ order.authorizations, ∀ m ∈ authz_fail_msgs env a,
        m ∈ (order.authorizations.map (authz_fail_msgs env)).flatten := by
  constructor
  · unfold handle_authorizations
    rw [authzLoop_covered env mapping order.authorizations hcov]
  · intro a ha m hm
    exact List.mem_flatten.mpr ⟨authz_fail_msgs env a, List.mem_map.mpr ⟨a, ha, rfl⟩, hm⟩

/-- Order and environment exercising the three failure kinds: a raised TXT
update for `a`, a missing dns-01 challenge for `b`, a rejected answer for
`c`. -/
def aggEnv : AcmeEnv :=
  ⟨[1], .ok ⟨[⟨"a", ["dns-01"]⟩, ⟨"b", ["http-01"]⟩, ⟨"c", ["dns-01"]⟩]⟩,
    fun d => if d == "a" then .raised ["txt update failed for a"] else .returned true,
    fun d => if d == "c" then .unexpected "bad key" else .ok,
    fun _ => .timeout⟩

/-- The order of `aggEnv`. -/
def aggOrder : AcmeOrder := ⟨[⟨"a", ["dns-01"]⟩, ⟨"b", ["http-01"]⟩, ⟨"c", ["dns-01"]⟩]⟩

/-- Witness for C6 (amended): all three domains are attempted and the single
aggregate carries all three failure messages. -/
theorem handle_authorizations_aggregates_witness :
    handle_authorizations aggEnv [("a", 1), ("b", 1), ("c", 1)] aggOrder =
      (aggOrder.authorizations.map (fun a => a.domain),
        if ((aggOrder.authorizations.map (authz_fail_msgs aggEnv)).flatten).isEmpty then none
        else some (.validationErrors
          ((aggOrder.authorizations.map (authz_fail_msgs aggEnv)).flatten))) ∧
      ∀ a ∈ aggOrder.authorizations, ∀ m ∈ authz_fail_msgs aggEnv a,
        m ∈ (aggOrder.authorizations.map (authz_fail_msgs aggEnv)).flatten :=
  handle_authorizations_aggregates aggEnv [("a", 1), ("b", 1), ("c", 1)] aggOrder
    (by decide)

/-- Environment for the C6 counterexample: the TXT update reports a failed
publication by returning `False`; the challenge is still answered and no
error is recorded. -/
def txtFalseEnv : AcmeEnv :=
  ⟨[1], .ok ⟨[⟨"a.example.com", ["dns-01"]⟩]⟩,
    fun _ => .returned false, fun _ => .ok, fun _ => .timeout⟩

/-- Counterexample to claim C6: a TXT-record publication failure reported by
a `False` return is a per-domain DNS-01 failure, yet `handle_authorizations`
raises nothing and succeeds, contradicting that it succeeds without error
only if every domain succeeded. -/
theorem handle_authorizations_ignores_failed_txt_publication :
    handle_authorizations txtFalseEnv [("a.example.com", 1)]
        ⟨[⟨"a.example.com", ["dns-01"]⟩]⟩ = (["a.example.com"], none) ∧
      txtFalseEnv.txt "a.example.com" = .returned false := by
  exact ⟨by decide, by decide⟩

/-- Claim C7: finalize-timeout atomicity.  When validation and the
authorization loop succeed, `issue_certificate` polls the final order with
the `now + 10 minutes` deadline; on timeout it raises the distinct error
`Certificate request for final order timed out`, and
`__create_acme_certificate` persists nothing: the datastore insert of
`do_create` is never reached. -/
theorem acme_finalize_timeout_no_insert (env : AcmeEnv) (now : Int)
    (data : IssueData) (csr : CsrData) (order : AcmeOrder)
    (hval : domain_mapping_errors env.authenticatorIds data.dnsMapping
      (get_domain_names csr) = [])
    (horder : env.newOrder = .ok order)
    (hcov : ∀ a ∈ order.authorizations, (data.dnsMapping.lookup a.domain).isSome)
    (hok : ∀ a ∈ order.authorizations, authz_fail_msgs env a = [])
    (hpoll : env.poll (now + 10 * 60) = .timeout) :
    (create_acme_certificate env now data csr).2.1 = false ∧
      (create_acme_certificate env now data csr).2.2 =
        .error (.validationErrors ["Certificate request for final order timed out"]) ∧
      (create_acme_certificate env now data csr).1.pollDeadline = some (now + 10 * 60) := by
  have hjoin : ((order.authorizations.map (authz_fail_msgs env)).flatten) = [] := by
    refine List.flatten_eq_nil_iff.mpr ?_
    intro l hl
    rcases List.mem_map.mp hl with ⟨a, ha, rfl⟩
    exact hok a ha
  have hhandle : handle_authorizations env data.dnsMapping order =
      (order.authorizations.map (fun a => a.domain), none) := by
    unfold handle_authorizations
    rw [authzLoop_covered env data.dnsMapping order.authorizations hcov]
    simp [hjoin]
  have hissue : issue_certificate env now data csr =
      ⟨true, order.authorizations.map (fun a => a.domain), some (now + 10 * 60),
        .error (.validationErrors ["Certificate request for final order timed out"])⟩ := by
    unfold issue_certificate
    simp only [hval, List.isEmpty_nil, if_true, horder, hhandle, hpoll]
  unfold create_acme_certificate
  rw [hissue]
  exact ⟨rfl, rfl, rfl⟩

/-- Environment for the C7 witness: one domain whose authorization succeeds,
and a finalize poll that never terminates in time. -/
def timeoutEnv : AcmeEnv :=
  ⟨[1], .ok ⟨[⟨"a", ["dns-01"]⟩]⟩, fun _ => .returned true, fun _ => .ok,
    fun _ => .timeout⟩

/-- Witness for C7: with a clean validation and authorization pass and a
poll that times out at deadline 600, nothing is inserted and the timeout
error is raised. -/
theorem acme_finalize_timeout_no_insert_witness :
    (create_acme_certificate timeoutEnv 0 ⟨[("a", 1)]⟩ ⟨"a", []⟩).2.1 = false ∧
      (create_acme_certificate timeoutEnv 0 ⟨[("a", 1)]⟩ ⟨"a", []⟩).2.2 =
        .error (.validationErrors ["Certificate request for final order timed out"]) ∧
      (create_acme_certificate timeoutEnv 0 ⟨[("a", 1)]⟩ ⟨"a", []⟩).1.pollDeadline =
        some ((0 : Int) + 10 * 60) :=
  acme_finalize_timeout_no_insert timeoutEnv 0 ⟨[("a", 1)]⟩ ⟨"a", []⟩
    ⟨[⟨"a", ["dns-01"]⟩]⟩ (by decide) rfl (by decide) (by decide) rfl

/-! ## Record model and cert_extend -/

/-- The certificate type tags of the source. -/
def CA_TYPE_EXISTING : Nat := 1
def CA_TYPE_INTERNAL : Nat := 2
def CA_TYPE_INTERMEDIATE : Nat := 4
def CERT_TYPE_EXISTING : Nat := 8
def CERT_TYPE_INTERNAL : Nat := 16
def CERT_TYPE_CSR : Nat := 32

def CERT_ROOT_PATH : String := "/etc/certificates"
def CERT_CA_ROOT_PATH : String := "/etc/certificates/CA"

/-- The value stored under the `san` key: a space-joined string at rest, a
list after enrichment. -/
inductive SanV where
  | str (s : String)
  | lst (l : List String)
deriving DecidableEq, Repr

/-- A dictionary key that may be absent (popped) or present with a value;
`pop` on an absent key raises `KeyError`. -/
inductive KeyV (α : Type) where
  | absent
  | present (v : α)
deriving DecidableEq, Repr

mutual
/-- A Python value sitting in the `signedby` or `issuer` slots: `None`, one
of the issuer label strings, a raw foreign-key row (identified by its id),
or a fully extended record. -/
inductive PyRef : Type where
  | pyNone : PyRef
  | pyStr : String → PyRef
  | pyRow : Nat → PyRef
  | pyCert : ECert → PyRef

/-- A certificate/CA record as manipulated by `cert_extend`: the stored
columns followed by the derived fields the enrichment writes (which a raw
row carries with default values, as `cert_extend` never reads them before
writing except for `DN`). -/
inductive ECert : Type where
  | mk : (id : Nat) → (name : String) → (ctype : Nat) →
      (certificate : String) → (privatekey : String) → (csr : String) →
      (san : SanV) → (serial : Option Int) →
      (signedby : PyRef) → (chain : Bool) →
      (acme : KeyV (Option Nat)) → (acmeUri : KeyV String) →
      (domAuth : KeyV String) → (renewDays : KeyV Int) →
      (issuer : PyRef) → (chainList : List String) →
      (rootPath : String) → (certPath : String) → (pkPath : String) →
      (csrPath : String) → (internal : String) →
      (fromDate : Option String) → (untilDate : Option String) →
      (dn : Option String) → ECert
end

def ECert.id : ECert → Nat
  | .mk i _ _ _ _ _ _ _ _ _ _ _ _ _ _ _ _ _ _ _ _ _ _ _ => i

def ECert.name : ECert → String
  | .mk _ v _ _ _ _ _ _ _ _ _ _ _ _ _ _ _ _ _ _ _ _ _ _ => v

def ECert.ctype : ECert → Nat
  | .mk _ _ v _ _ _ _ _ _ _ _ _ _ _ _ _ _ _ _ _ _ _ _ _ => v

def ECert.certificate : ECert → String
  | .mk _ _ _ v _ _ _ _ _ _ _ _ _ _ _ _ _ _ _ _ _ _ _ _ => v

def ECert.san : ECert → SanV
  | .mk _ _ _ _ _ _ v _ _ _ _ _ _ _ _ _ _ _ _ _ _ _ _ _ => v

def ECert.serial : ECert → Option Int
  | .mk _ _ _ _ _ _ _ v _ _ _ _ _ _ _ _ _ _ _ _ _ _ _ _ => v

def ECert.signedby : ECert → PyRef
  | .mk _ _ _ _ _ _ _ _ v _ _ _ _ _ _ _ _ _ _ _ _ _ _ _ => v

def ECert.chain : ECert → Bool
  | .mk _ _ _ _ _ _ _ _ _ v _ _ _ _ _ _ _ _ _ _ _ _ _ _ => v

def ECert.acme : ECert → KeyV (Option Nat)
  | .mk _ _ _ _ _ _ _ _ _ _ v _ _ _ _ _ _ _ _ _ _ _ _ _ => v

def ECert.issuer : ECert → PyRef
  | .mk _ _ _ _ _ _ _ _ _ _ _ _ _ _ v _ _ _ _ _ _ _ _ _ => v

def ECert.chainList : ECert → List String
  | .mk _ _ _ _ _ _ _ _ _ _ _ _ _ _ _ v _ _ _ _ _ _ _ _ => v

/-- Python truthiness of a `signedby`/`issuer` slot. -/
def truthyRef : PyRef → Bool
  | .pyNone => false
  | .pyStr s => !(s == "")
  | .pyRow _ => true
  | .pyCert _ => true

/-- The `['id']` subscript of a `signedby` slot; `none` models subscripting
a value that has no such key (a `TypeError` on a string). -/
def refId : PyRef → Option Nat
  | .pyRow i => some i
  | .pyCert c => some c.id
  | _ => none

/-- The abstract cryptographic collaborators of `cert_extend` and of the
certificate-import path.  `loadDumpCert s` is `dump(load_certificate(s))`, `none`
meaning the load raises; similarly for keys and CSRs.  `pemFindall` is
`RE_CERTIFICATE.findall`; `loadCertInfo` is `load_certificate`'s parsed
info restricted to the subjectAltName string and the serial, `none` meaning
the parse failed and an empty dict was returned. -/
structure CryptoEnv where
  pemFindall : String → List String
  loadDumpCert : String → Option String
  loadDumpKey : String → Option String
  loadDumpCSR : String → Option String
  notBefore : String → String
  notAfter : String → String
  certComponents : String → List (String × String)
  csrComponents : String → List (String × String)
  loadCertInfo : String → Option (Option String × Option Int)
  exportKey : String → String → Option String

/-- Python `str.split()` with no argument: split on whitespace runs,
dropping empty pieces. -/
def splitWsAux : List Char → List Char → List String
  | [], acc => if acc.isEmpty then [] else [String.mk acc.reverse]
  | c :: cs, acc =>
    if c.isWhitespace then
      if acc.isEmpty then splitWsAux cs []
      else String.mk acc.reverse :: splitWsAux cs []
    else splitWsAux cs (c :: acc)

def splitWs (s : String) : List String := splitWsAux s.toList []

/-- `(cert.pop('san', '') or '').split()`: a string is split on whitespace
(an empty string, like an empty list, yields `[]`); a nonempty list is
truthy, survives the `or`, and `.split()` on a list raises
`AttributeError`. -/
def splitSan : SanV → Except PyErr (List String)
  | .str s => .ok (splitWs s)
  | .lst [] => .ok []
  | .lst (_ :: _) => .error (.attributeError "split")

/-- The pops of the four ACME keys when the record is not ACME-based, in
source order (`acme`, `acme_uri`, `domains_authenticators`, `renew_days`);
a pop of an absent key raises `KeyError`.  A truthy `acme` value keeps all
four keys. -/
def popAcme : KeyV (Option Nat) → KeyV String → KeyV String → KeyV Int →
    Except PyErr (KeyV (Option Nat) × KeyV String × KeyV String × KeyV Int)
  | .present (some a), au, da, rd => .ok (.present (some a), au, da, rd)
  | .absent, _, _, _ => .error (.keyError "acme")
  | .present none, .absent, _, _ => .error (.keyError "acme_uri")
  | .present none, .present _, .absent, _ => .error (.keyError "domains_authenticators")
  | .present none, .present _, .present _, .absent => .error (.keyError "renew_days")
  | .present none, .present _, .present _, .present _ => .ok (.absent, .absent, .absent, .absent)

/-- `cert_issuer(cert)` of the source, over the type tag and the (already
resolved) `signedby` slot. -/
def certIssuerOf (t : Nat) (sb : PyRef) : PyRef :=
  if t == CA_TYPE_EXISTING || t == CERT_TYPE_EXISTING then .pyStr "external"
  else if t == CA_TYPE_INTERNAL then .pyStr "self-signed"
  else if t == CERT_TYPE_INTERNAL || t == CA_TYPE_INTERMEDIATE then sb
  else if t == CERT_TYPE_CSR then .pyStr "external - signature pending"
  else .pyNone

mutual
/-- The `while signing_CA not in [...]` walk of `cert_extend`: as long as
the issuer slot holds a record, append its certificate, set its own
`issuer` via `cert_issuer` and continue there.  Returns the appended
certificate bodies and the updated (issuer-annotated) object.  A raw
foreign-key row would be subscripted with unprefixed keys (`KeyError`); a
string other than the three labels would be subscripted (`TypeError`). -/
def walkRef : PyRef → Except PyErr (List String × PyRef)
  | .pyNone => .ok ([], .pyNone)
  | .pyStr s =>
    if s == "external" || s == "self-signed" || s == "external - signature pending"
    then .ok ([], .pyStr s) else .error .typeError
  | .pyRow _ => .error (.keyError "certificate")
  | .pyCert c => walkCert c

/-- One record step of the walk.  When the record's issuer is its
`signedby` (internal/intermediate types) the walk recurses into it and the
shared object is updated in both slots; otherwise the issuer label is
terminal and the walk stops after this record's certificate. -/
def walkCert : ECert → Except PyErr (List String × PyRef)
  | .mk i nm t cert pk csr sanv ser sb ch a au da rd _iss cl rp cp pp csp intl fr un d =>
    if t == CERT_TYPE_INTERNAL || t == CA_TYPE_INTERMEDIATE then
      match walkRef sb with
      | .error e => .error e
      | .ok (below, issUpd) =>
        .ok (cert :: below,
          .pyCert (.mk i nm t cert pk csr sanv ser issUpd ch a au da rd issUpd cl
            rp cp pp csp intl fr un d))
    else
      .ok ([cert],
        .pyCert (.mk i nm t cert pk csr sanv ser sb ch a au da rd
          (certIssuerOf t sb) cl rp cp pp csp intl fr un d))
end

/-- The `for c in certs` loop of `cert_extend`, wrapped in one
`try/except`: empty entries are skipped; a successful load appends the
re-dumped certificate and marks `cert_obj` set; the first load failure
aborts the whole loop (the exception is caught outside the loop), keeping
what was appended so far. -/
def chainLoop (env : CryptoEnv) : List String → List String → Bool → List String × Bool
  | [], acc, objSet => (acc, objSet)
  | c :: rest, acc, objSet =>
    if c == "" then chainLoop env rest acc objSet
    else
      match env.loadDumpCert c with
      | some dc => chainLoop env rest (acc ++ [dc]) true
      | none => (acc, objSet)

/-- `'/' + '/'.join('%s=%s' % c for c in subject components)`. -/
def mkDN (comps : List (String × String)) : String :=
  "/" ++ String.intercalate "/" (comps.map (fun p => p.1 ++ "=" ++ p.2))

/-- The tail of `cert_extend`: `from`/`until`/`DN`.  For a CSR-type record
the dates stay unset and the DN comes from the CSR object (a `NameError` if
`csr_obj` was never assigned); otherwise, if the chain loop loaded some
certificate, the record's own certificate is loaded again — outside any
`try` — and provides the dates and the DN; otherwise everything stays as it
was (`dn0` is the incoming DN value). -/
def datesAndDN (env : CryptoEnv) (t : Nat) (certificate csr : String)
    (certObjSet csrObjSet : Bool) (dn0 : Option String) :
    Except PyErr (Option String × Option String × Option String) :=
  if t == CERT_TYPE_CSR then
    if csrObjSet then .ok (none, none, some (mkDN (env.csrComponents csr)))
    else .error (.nameError "csr_obj")
  else if certObjSet then
    match env.loadDumpCert certificate with
    | none => .error .cryptoError
    | some _ =>
      .ok (some (env.notBefore certificate), some (env.notAfter certificate),
        some (mkDN (env.certComponents certificate)))
  else .ok (none, none, dn0)

/-- `cert_extend`: resolve a truthy `signedby` by re-querying and
recursively extending the parent row (the fuel bounds this unbounded
recursion); pop the ACME keys when the record is not ACME-based; split the
`san`; compute the root path and the file paths; compute the issuer; build
the list of chain links either from `RE_CERTIFICATE.findall` (chain flag
set) or by walking the issuer chain; run the parse-tolerant load/dump loop;
re-dump the private key and the CSR (failures logged and ignored); set the
`internal` marker; and finally derive the validity dates and the DN. -/
def cert_extend (env : CryptoEnv) (store : List ECert) : Nat → ECert → Except PyErr ECert
  | 0, _ => .error .recursionError
  | fuel + 1, .mk i nm t certificate pk csr sanv ser sb ch a au da rd _iss _cl
      _rp _cp _pp _csp _intl _fr _un dn0 =>
    match (if truthyRef sb then
        match refId sb with
        | none => Except.error PyErr.typeError
        | some sid =>
          match store.find? (fun c => c.id == sid) with
          | none => Except.error PyErr.matchNotFound
          | some raw =>
            match cert_extend env store fuel raw with
            | .error e => Except.error e
            | .ok ext => Except.ok (PyRef.pyCert ext)
      else Except.ok sb) with
    | .error e => .error e
    | .ok sb1 =>
      match popAcme a au da rd with
      | .error e => .error e
      | .ok (a1, au1, da1, rd1) =>
        match splitSan sanv with
        | .error e => .error e
        | .ok san1 =>
          let rootPath := if t == CA_TYPE_EXISTING || t == CA_TYPE_INTERNAL ||
              t == CA_TYPE_INTERMEDIATE then CERT_CA_ROOT_PATH else CERT_ROOT_PATH
          let certPath := rootPath ++ "/" ++ nm ++ ".crt"
          let pkPath := rootPath ++ "/" ++ nm ++ ".key"
          let csrPath := rootPath ++ "/" ++ nm ++ ".csr"
          let issuer1 := certIssuerOf t sb1
          match (if ch then Except.ok (env.pemFindall certificate, issuer1, sb1)
              else
                match walkRef issuer1 with
                | .error e => Except.error e
                | .ok (below, issUpd) =>
                  Except.ok (certificate :: below, issUpd,
                    if t == CERT_TYPE_INTERNAL || t == CA_TYPE_INTERMEDIATE
                    then issUpd else sb1)) with
          | .error e => .error e
          | .ok (certs, issuerF, sbF) =>
            let cres := chainLoop env certs [] false
            let pk1 := if pk == "" then pk
              else match env.loadDumpKey pk with
                | some dk => dk
                | none => pk
            let csrRes := if csr == "" then (csr, false)
              else match env.loadDumpCSR csr with
                | some dc => (dc, true)
                | none => (csr, false)
            let internal1 := if t == CA_TYPE_EXISTING || t == CERT_TYPE_EXISTING
              then "NO" else "YES"
            match datesAndDN env t certificate csr cres.2 csrRes.2 dn0 with
            | .error e => .error e
            | .ok (from1, until1, dn1) =>
              .ok (.mk i nm t certificate pk1 csrRes.1 (.lst san1) ser sbF ch
                a1 au1 da1 rd1 issuerF cres.1 rootPath certPath pkPath csrPath
                internal1 from1 until1 dn1)

/-- A raw imported-certificate row as stored by `do_create` after
`__create_imported_certificate`: `CERT_TYPE_EXISTING`, no signing CA, the
four ACME columns present with null/default values, an empty SAN string. -/
def rawImportedCert (nm pem : String) (ch : Bool) : ECert :=
  .mk 0 nm CERT_TYPE_EXISTING pem "" "" (.str "") none .pyNone ch
    (.present none) (.present "") (.present "") (.present 0)
    .pyNone [] "" "" "" "" "" none none none

/-! ## Imported-certificate creation (__create_imported_certificate) -/

/-- Input of `__create_imported_certificate`: name, PEM certificate body,
private key (empty string for absent), optional passphrase, optional CSR
record id. -/
structure ImportIn where
  name : String
  certificate : String
  privatekey : String
  passphrase : Option String
  csrId : Option Nat
deriving DecidableEq, Repr

/-- The record fields `__create_imported_certificate` produces that matter
here. -/
structure ImportedRecord where
  name : String
  ctype : Nat
  certificate : String
  privatekey : String
  chain : Bool
  sanInfo : Option String
  serialInfo : Option Int
deriving DecidableEq, Repr

/-- The shared tail of the import: set `CERT_TYPE_EXISTING`, merge the
parsed certificate info (`__create_certificate`), compute the chain flag
from the number of PEM blocks, and re-export the key when a passphrase was
supplied. -/
def finishImport (env : CryptoEnv) (d : ImportIn) : ImportedRecord :=
  let info := env.loadCertInfo d.certificate
  let sanInfo := match info with | none => none | some p => p.1
  let serialInfo := match info with | none => none | some p => p.2
  let chainFlag := decide ((env.pemFindall d.certificate).length > 1)
  let pk := match d.passphrase with
    | none => d.privatekey
    | some pass =>
      match env.exportKey d.privatekey pass with
      | some k => k
      | none => ""
  ⟨d.name, CERT_TYPE_EXISTING, d.certificate, pk, chainFlag, sanInfo, serialInfo⟩

/-- `__create_imported_certificate`: when a CSR id is given, its record
must exist and supplies the private key (the passphrase is dropped);
otherwise a private key is required.  Then the shared import tail runs. -/
def create_imported_certificate (env : CryptoEnv) (csrLookup : Nat → Option String)
    (d : ImportIn) : Except PyErr ImportedRecord :=
  match d.csrId with
  | some i =>
    match csrLookup i with
    | none => .error (.validationErrors ["No CSR exists with id " ++ toString i])
    | some pk =>
      .ok (finishImport env ⟨d.name, d.certificate, pk, none, none⟩)
  | none =>
    if d.privatekey == "" then
      .error (.validationErrors ["Private key is required when importing a certificate"])
    else .ok (finishImport env d)

/-- `Except.isOk` spelled out for the embedding. -/
def exceptIsOk : Except PyErr ECert → Bool
  | .ok _ => true
  | .error _ => false

/-- Identity-style crypto environment: every parse succeeds and dumps the
input unchanged. -/
def idCryptoEnv : CryptoEnv :=
  ⟨fun _ => [], fun s => some s, fun s => some s, fun s => some s,
    fun _ => "nb", fun _ => "na", fun _ => [("CN", "test")], fun _ => [],
    fun _ => none, fun _ _ => none⟩

/-- A raw (un-enriched) non-ACME certificate row with a nonempty SAN
string. -/
def rawCertSample : ECert :=
  .mk 1 "mycert" CERT_TYPE_EXISTING "PEM1" "" "" (.str "a b") (some 5) .pyNone false
    (.present none) (.present "") (.present "") (.present 0)
    .pyNone [] "" "" "" "" "" none none none

/-- Counterexample to claim C5: `cert_extend` succeeds on the raw record but
raises `KeyError('acme')` when applied again to its own output — for a
non-ACME record the ACME keys were removed by the first pass and the second
pass pops them unconditionally.  The claim asserts the second application
yields the same derived fields without raising. -/
theorem cert_extend_second_application_raises :
    exceptIsOk (cert_extend idCryptoEnv [] 1 rawCertSample) = true ∧
      (cert_extend idCryptoEnv [] 1 rawCertSample).bind (cert_extend idCryptoEnv [] 1) =
        .error (.keyError "acme") :=
  ⟨rfl, rfl⟩

/-- Claim C5 (amended): `cert_extend` is pure over the store but not
idempotent.  Any record whose ACME keys are absent — as they are in every
enriched non-ACME record — makes a further `cert_extend` raise
`KeyError('acme')` when popping the already-removed `acme` key (and an
enriched nonempty `san` list would likewise raise `AttributeError` on
`.split()`), so `cert_extend` may only be applied to raw rows. -/
theorem cert_extend_not_idempotent (env : CryptoEnv) (store : List ECert) (f : Nat)
    (e : ECert) (ha : e.acme = KeyV.absent) (hs : e.signedby = PyRef.pyNone) :
    cert_extend env store (f + 1) e = .error (.keyError "acme") := by
  cases e with
  | mk i nm t cert pk csr sanv ser sb ch a au da rd iss cl rp cp pp csp intl fr un d =>
    simp only [ECert.acme] at ha
    simp only [ECert.signedby] at hs
    subst ha; subst hs
    rfl

/-- An already-enriched non-ACME record (the shape `cert_extend` produces):
ACME keys absent, san already a list. -/
def enrichedSample : ECert :=
  .mk 1 "mycert" CERT_TYPE_EXISTING "PEM1" "" "" (.lst ["a", "b"]) (some 5) .pyNone false
    .absent .absent .absent .absent (.pyStr "external") ["PEM1"]
    "/etc/certificates" "" "" "" "NO" none none none

/-- Witness for C5 (amended): re-extending a concrete enriched record
raises `KeyError('acme')`. -/
theorem cert_extend_not_idempotent_witness :
    cert_extend idCryptoEnv [] 1 enrichedSample = .error (.keyError "acme") :=
  cert_extend_not_idempotent idCryptoEnv [] 0 enrichedSample rfl rfl

/-- The chain loop over a prefix of nonempty, parseable links followed by a
corrupt link: it appends exactly the dumps of the prefix, marks `cert_obj`
set iff the prefix is nonempty, and drops everything after the corrupt
link. -/
theorem chainLoop_prefix_stops (env : CryptoEnv) :
    ∀ (pre : List String) (bad : String) (post acc : List String) (b : Bool),
      (∀ x ∈ pre, x ≠ "" ∧ (env.loadDumpCert x).isSome) →
      bad ≠ "" → env.loadDumpCert bad = none →
      chainLoop env (pre ++ bad :: post) acc b =
        (acc ++ pre.filterMap env.loadDumpCert, b || !pre.isEmpty) := by
  intro pre
  induction pre with
  | nil =>
    intro bad post acc b _ hbad hfail
    simp [chainLoop, hbad, hfail]
  | cons x xs ih =>
    intro bad post acc b hpre hbad hfail
    obtain ⟨hx, hxs⟩ := hpre x (List.mem_cons_self _ _)
    rcases Option.isSome_iff_exists.mp hxs with ⟨dx, hdx⟩
    have hxb : (x == "") = false := by simpa using hx
    have hrest := ih bad post (acc ++ [dx]) true
      (fun y hy => hpre y (List.mem_cons_of_mem _ hy)) hbad hfail
    simp only [List.cons_append, chainLoop, hxb, Bool.false_eq_true, if_false, hdx,
      List.append_eq]
    rw [hrest]
    simp [hdx, List.filterMap_cons, List.append_assoc]

/-- Shape of `cert_extend` on a raw imported chain record: only the chain
loop and the final dates/DN step remain symbolic. -/
theorem cert_extend_rawImported (env : CryptoEnv) (store : List ECert) (f : Nat)
    (nm pem : String) (cl : List String) (objSet : Bool)
    (hloop : chainLoop env (env.pemFindall pem) [] false = (cl, objSet)) :
    cert_extend env store (f + 1) (rawImportedCert nm pem true) =
      match datesAndDN env CERT_TYPE_EXISTING pem "" objSet false none with
      | .error err => .error err
      | .ok (f1, u1, d1) =>
        .ok (.mk 0 nm CERT_TYPE_EXISTING pem "" "" (.lst []) none .pyNone true
          .absent .absent .absent .absent (.pyStr "external") cl
          CERT_ROOT_PATH (CERT_ROOT_PATH ++ "/" ++ nm ++ ".crt")
          (CERT_ROOT_PATH ++ "/" ++ nm ++ ".key")
          (CERT_ROOT_PATH ++ "/" ++ nm ++ ".csr") "NO" f1 u1 d1) := by
  have base : cert_extend env store (f + 1) (rawImportedCert nm pem true) =
      match datesAndDN env CERT_TYPE_EXISTING pem ""
          (chainLoop env (env.pemFindall pem) [] false).2 false none with
      | .error err => .error err
      | .ok (f1, u1, d1) =>
        .ok (.mk 0 nm CERT_TYPE_EXISTING pem "" "" (.lst []) none .pyNone true
          .absent .absent .absent .absent (.pyStr "external")
          (chainLoop env (env.pemFindall pem) [] false).1
          CERT_ROOT_PATH (CERT_ROOT_PATH ++ "/" ++ nm ++ ".crt")
          (CERT_ROOT_PATH ++ "/" ++ nm ++ ".key")
          (CERT_ROOT_PATH ++ "/" ++ nm ++ ".csr") "NO" f1 u1 d1) := rfl
  rw [hloop] at base
  exact base

/-- Claim C8 (amended): parse tolerance of the chain loop.  With the chain
flag set, a corrupt PEM link does not fail the read: `cert_extend` still
returns an enriched record whose `chain_list` holds exactly the dumps of
the links before the corrupt one — the corrupt link and every link after
it are skipped (the caught exception aborts the loop). -/
theorem cert_extend_chain_keeps_leading_links (env : CryptoEnv) (store : List ECert)
    (f : Nat) (nm pem : String) (pre : List String) (bad : String)
    (post : List String)
    (hfa : env.pemFindall pem = pre ++ bad :: post)
    (hpre : ∀ x ∈ pre, x ≠ "" ∧ (env.loadDumpCert x).isSome)
    (hbad : bad ≠ "") (hfail : env.loadDumpCert bad = none)
    (hfull : (env.loadDumpCert pem).isSome) :
    ∃ e, cert_extend env store (f + 1) (rawImportedCert nm pem true) = .ok e ∧
      e.chainList = pre.filterMap env.loadDumpCert := by
  rcases Option.isSome_iff_exists.mp hfull with ⟨w, hw⟩
  have hloop : chainLoop env (env.pemFindall pem) [] false =
      (pre.filterMap env.loadDumpCert, !pre.isEmpty) := by
    rw [hfa, chainLoop_prefix_stops env pre bad post [] false hpre hbad hfail]
    simp
  have hshape := cert_extend_rawImported env store f nm pem
    (pre.filterMap env.loadDumpCert) (!pre.isEmpty) hloop
  cases pre with
  | nil =>
    have hdd : datesAndDN env CERT_TYPE_EXISTING pem ""
        (!(List.isEmpty ([] : List String))) false none = .ok (none, none, none) := rfl
    simp only [hdd] at hshape
    exact ⟨_, hshape, rfl⟩
  | cons p ps =>
    have hdd : datesAndDN env CERT_TYPE_EXISTING pem "" true false none =
        .ok (some (env.notBefore pem), some (env.notAfter pem),
          some (mkDN (env.certComponents pem))) := by
      unfold datesAndDN
      rw [hw]
      rfl
    simp only [List.isEmpty_cons, Bool.not_false] at hshape
    simp only [hdd] at hshape
    exact ⟨_, hshape, rfl⟩

/-- Environment for the C8 counterexample and witness: a full PEM of three
blocks whose middle block is corrupt; every other string dumps with a `#`
suffix. -/
def chainEnvBad : CryptoEnv :=
  ⟨fun s => if s == "FULL" then ["G1", "BAD", "G2"] else [],
    fun s => if s == "BAD" then none else some (s ++ "#"),
    fun s => some s, fun s => some s, fun _ => "nb", fun _ => "na",
    fun _ => [], fun _ => [], fun _ => none, fun _ _ => none⟩

/-- Counterexample to claim C8: with chain links `G1, BAD, G2` where only
`BAD` is corrupt, the read succeeds but `chain_list` is `[G1#]` — the
parseable link `G2` does **not** appear, contradicting that only the
corrupt link is skipped. -/
theorem cert_extend_drops_links_after_corrupt :
    Except.map ECert.chainList
        (cert_extend chainEnvBad [] 1 (rawImportedCert "n" "FULL" true)) =
      .ok ["G1#"] ∧
      chainEnvBad.loadDumpCert "G2" = some "G2#" :=
  ⟨rfl, rfl⟩

/-- Witness for C8 (amended): the concrete three-block chain of
`chainEnvBad` keeps the prefix `[G1#]` and the read succeeds. -/
theorem cert_extend_chain_keeps_leading_links_witness :
    ∃ e, cert_extend chainEnvBad [] 1 (rawImportedCert "n" "FULL" true) = .ok e ∧
      e.chainList = ["G1"].filterMap chainEnvBad.loadDumpCert :=
  cert_extend_chain_keeps_leading_links chainEnvBad [] 0 "n" "FULL" ["G1"] "BAD" ["G2"]
    rfl (by decide) (by decide) rfl (by decide)

/-- Claim C9: imported chain detection.  For an imported certificate whose
PEM body holds exactly two parseable PEM blocks,
`__create_imported_certificate` stores the record with the chain flag set,
and `cert_extend` of the stored record produces a `chain_list` of length
two. -/
theorem imported_two_block_chain (env : CryptoEnv) (csrLookup : Nat → Option String)
    (store : List ECert) (f : Nat) (nm pem pk b1 b2 d1 d2 w : String)
    (hpk : pk ≠ "")
    (hfa : env.pemFindall pem = [b1, b2])
    (hb1 : b1 ≠ "") (hb2 : b2 ≠ "")
    (hd1 : env.loadDumpCert b1 = some d1) (hd2 : env.loadDumpCert b2 = some d2)
    (hw : env.loadDumpCert pem = some w) :
    ∃ r, create_imported_certificate env csrLookup ⟨nm, pem, pk, none, none⟩ = .ok r ∧
        r.chain = true ∧
      ∃ e, cert_extend env store (f + 1) (rawImportedCert nm pem true) = .ok e ∧
        e.chainList.length = 2 := by
  have himport : create_imported_certificate env csrLookup ⟨nm, pem, pk, none, none⟩ =
      .ok (finishImport env ⟨nm, pem, pk, none, none⟩) := by
    unfold create_imported_certificate
    simp [hpk]
  have hchain : (finishImport env ⟨nm, pem, pk, none, none⟩).chain = true := by
    unfold finishImport
    simp [hfa]
  have hloop : chainLoop env (env.pemFindall pem) [] false = ([d1, d2], true) := by
    rw [hfa]
    simp [chainLoop, hb1, hb2, hd1, hd2]
  have hshape := cert_extend_rawImported env store f nm pem [d1, d2] true hloop
  have hdd : datesAndDN env CERT_TYPE_EXISTING pem "" true false none =
      .ok (some (env.notBefore pem), some (env.notAfter pem),
        some (mkDN (env.certComponents pem))) := by
    unfold datesAndDN
    rw [hw]
    rfl
  simp only [hdd] at hshape
  exact ⟨_, himport, hchain, _, hshape, rfl⟩

/-- Environment for the C9 witness: `TWO` splits into the blocks `B1, B2`,
and every string dumps with a `#` suffix. -/
def twoBlockEnv : CryptoEnv :=
  ⟨fun s => if s == "TWO" then ["B1", "B2"] else [],
    fun s => some (s ++ "#"), fun s => some s, fun s => some s,
    fun _ => "nb", fun _ => "na", fun _ => [], fun _ => [],
    fun _ => none, fun _ _ => none⟩

/-- Witness for C9: a concrete two-block import has the chain flag set and a
two-entry chain list. -/
theorem imported_two_block_chain_witness :
    ∃ r, create_imported_certificate twoBlockEnv (fun _ => none)
          ⟨"n", "TWO", "KEY", none, none⟩ = .ok r ∧
        r.chain = true ∧
      ∃ e, cert_extend twoBlockEnv [] 1 (rawImportedCert "n" "TWO" true) = .ok e ∧
        e.chainList.length = 2 :=
  imported_two_block_chain twoBlockEnv (fun _ => none) [] 0 "n" "TWO" "KEY"
    "B1" "B2" "B1#" "B2#" "TWO#" (by decide) rfl (by decide) (by decide)
    rfl rfl rfl
